import Mathlib

/-!
Verification of the dash2 storefront core against its source.

The embedding models the Express route handlers and the Supabase-backed
data-access modules as pure state transformers over an explicit `DB` state.
Currency values (3-decimal fixed point in the app) are modelled as `Int`
numbers of thousandths (1.500 BD = 1500), which is exact for every constant
and every operation (sums and integer-quantity products) in the modelled code;
stock counters as `Int` (JS numbers holding integers).  The Supabase client
itself is modelled as the obvious list-of-rows store; the foreign-key
action `ON DELETE SET NULL` of `migration.sql` is modelled directly on that
store.  bcrypt is abstracted as an injective deterministic hash with its
compare function, which is all the control-flow claims need.
-/

namespace Dash2

/-- ProductVariant (src/server/lib/supabase.ts). -/
structure ProductVariant where
  id : String
  name : String
  stock : Int
  image : String := ""
deriving Repr, DecidableEq

/-- Product (src/server/lib/supabase.ts). -/
structure Product where
  id : String
  name : String
  description : String := ""
  price : Int
  images : List String := []
  variants : List ProductVariant
  category_id : Option String := none
  total_stock : Int
deriving Repr, DecidableEq

/-- Category (src/server/lib/supabase.ts / migration.sql). -/
structure Category where
  id : String
  name : String
deriving Repr, DecidableEq

/-- Customer row (migration.sql `customers`). -/
structure Customer where
  id : String
  name : String
  phone : String
  address : String
deriving Repr, DecidableEq

/-- OrderItem (src/server/lib/orders-db.ts).  `variantId` is optional; a JS
`undefined` is `none` and an empty string is `some ""` (falsy in JS). -/
structure OrderItem where
  productId : String
  variantId : Option String := none
  quantity : Int
  price : Int
deriving Repr, DecidableEq

/-- Order row (src/server/lib/orders-db.ts).  Status / delivery fields are
kept as strings, as in the JS code. -/
structure Order where
  id : String
  customerId : String
  items : List OrderItem
  total : Int
  status : String
  deliveryType : String
  deliveryArea : String
  notes : String
deriving Repr, DecidableEq

/-- The whole durable state: the relational store the routes read and write. -/
structure DB where
  categories : List Category := []
  products : List Product := []
  customers : List Customer := []
  orders : List Order := []
deriving Repr, DecidableEq

instance {ε α : Type} [DecidableEq ε] [DecidableEq α] : DecidableEq (Except ε α) := fun x y =>
  match x, y with
  | .ok a, .ok b =>
    if h : a = b then .isTrue (by rw [h]) else .isFalse (by simp [h])
  | .error a, .error b =>
    if h : a = b then .isTrue (by rw [h]) else .isFalse (by simp [h])
  | .ok _, .error _ => .isFalse (by simp)
  | .error _, .ok _ => .isFalse (by simp)

/-- JS `a || b` on strings: empty string is falsy. -/
def jsOr (s d : String) : String := if s = "" then d else s

/-- JS `parseInt(x) || rest` on an optional integer field: an absent field
(`parseInt` gives `NaN`) and the value `0` are both falsy and fall through. -/
def jsOrInt (v : Option Int) (d : Int) : Int :=
  match v with
  | some n => if n = 0 then d else n
  | none => d

/-- `productDb.getById` (src/server/lib/supabase.ts): first row with this id. -/
def productGetById (db : DB) (pid : String) : Option Product :=
  db.products.find? (fun p => p.id = pid)

/-- `productDb.update` applied to one row: replace the matching product. -/
def productUpdateRow (db : DB) (pid : String) (f : Product → Product) : DB :=
  { db with products := db.products.map (fun p => if p.id = pid then f p else p) }

/-- Sum of `variant.stock` (the `reduce((sum, v) => sum + v.stock, 0)` calls). -/
def variantStockSum (vs : List ProductVariant) : Int :=
  vs.foldl (fun sum v => sum + v.stock) 0

/-- `Σ item.price * item.quantity` (the `reduce` in createOrder/updateOrder). -/
def itemsSubtotal (items : List OrderItem) : Int :=
  items.foldl (fun sum item => sum + item.price * item.quantity) 0

/-- The JS truthiness test `item.variantId && item.variantId !== "no-variant"`:
present, non-empty, and not the sentinel. -/
def hasVariantSelector (item : OrderItem) : Bool :=
  match item.variantId with
  | some v => v ≠ "" && v ≠ "no-variant"
  | none => false

/-- Structured form of the 400-responses of createOrder
(src/server/routes/orders.ts); the insufficient-stock constructor carries
exactly the data interpolated into the message string: product name,
variant name when on the variant path, available stock, requested qty. -/
inductive OrderError where
  | customerIdRequired
  | itemsRequired
  | itemFieldsRequired
  | quantityNotPositive
  | priceNegative
  | productNotFound (productId : String)
  | variantNotFound (variantId : String) (productName : String)
  | insufficientStock (productName : String) (variantName : Option String)
      (available : Int) (requested : Int)
deriving Repr, DecidableEq

/-- The single validation loop of createOrder (src/server/routes/orders.ts
lines 38-79): per-item field checks, product fetch, variant resolution and
the stock check, returning the first error found. -/
def validateItems (db : DB) : List OrderItem → Option OrderError
  | [] => none
  | item :: rest =>
    if item.productId = "" then some .itemFieldsRequired
    else if item.quantity = 0 then some .itemFieldsRequired
    else if item.price = 0 then some .itemFieldsRequired
    else if item.quantity ≤ 0 then some .quantityNotPositive
    else if item.price < 0 then some .priceNegative
    else
      match productGetById db item.productId with
      | none => some (.productNotFound item.productId)
      | some product =>
        if hasVariantSelector item then
          match product.variants.find? (fun v => v.id = item.variantId.getD "") with
          | none => some (.variantNotFound (item.variantId.getD "") product.name)
          | some variant =>
            if variant.stock < item.quantity then
              some (.insufficientStock product.name (some variant.name)
                variant.stock item.quantity)
            else validateItems db rest
        else
          if product.total_stock < item.quantity then
            some (.insufficientStock product.name none
              product.total_stock item.quantity)
          else validateItems db rest

/-- One iteration of the stock-reduction loop after order creation
(src/server/routes/orders.ts lines 105-129): on the variant path the
matching variant's stock is decremented (no floor) and `total_stock` is
recomputed as the new variant sum; on the variant-less path `total_stock`
is decremented with a `Math.max(0, ...)` floor. -/
def reduceStockForItem (db : DB) (item : OrderItem) : DB :=
  match productGetById db item.productId with
  | none => db
  | some product =>
    if hasVariantSelector item then
      let updatedVariants := product.variants.map (fun variant =>
        if variant.id = item.variantId.getD "" then
          { variant with stock := variant.stock - item.quantity }
        else variant)
      let newTotalStock := variantStockSum updatedVariants
      productUpdateRow db product.id (fun p =>
        { p with variants := updatedVariants, total_stock := newTotalStock })
    else
      let newTotalStock := product.total_stock - item.quantity
      productUpdateRow db product.id (fun p =>
        { p with total_stock := max 0 newTotalStock })

/-- The full stock-reduction loop. -/
def reduceStock (db : DB) (items : List OrderItem) : DB :=
  items.foldl reduceStockForItem db

/-- Request body of POST /api/orders.  `customerId = ""` models an absent
(falsy) field; `total` is the client-submitted total. -/
structure CreateOrderReq where
  customerId : String
  items : List OrderItem
  status : String := ""
  deliveryType : String := ""
  deliveryArea : String := ""
  notes : String := ""
  total : Option Int := none
deriving Repr, DecidableEq

/-- createOrder (src/server/routes/orders.ts lines 14-135): validate the
request and every item (field checks, product/variant existence, stock),
then recompute the total server-side — `itemsTotal` plus a flat delivery
fee of 1.5 when `deliveryType === "delivery"`, else 0 — persist the order
row via orderDb.create, then run the stock-reduction loop.  Returns the
response and the resulting store state. -/
def createOrder (db : DB) (req : CreateOrderReq) : Except OrderError Order × DB :=
  if req.customerId = "" then (.error .customerIdRequired, db)
  else if req.items.isEmpty then (.error .itemsRequired, db)
  else
    match validateItems db req.items with
    | some e => (.error e, db)
    | none =>
      let itemsTotal := itemsSubtotal req.items
      let deliveryFee : Int := if req.deliveryType = "delivery" then 1500 else 0
      let finalTotal := itemsTotal + deliveryFee
      let newOrder : Order := {
        id := toString db.orders.length,
        customerId := req.customerId,
        items := req.items,
        total := finalTotal,
        status := jsOr req.status "processing",
        deliveryType := jsOr req.deliveryType "delivery",
        deliveryArea := jsOr req.deliveryArea "sitra",
        notes := req.notes }
      let db1 : DB := { db with orders := db.orders ++ [newOrder] }
      let db2 := reduceStock db1 req.items
      (.ok newOrder, db2)

/-- Request body of POST /api/products (src/server/routes/products.ts).
`variants = none` models an absent field; the three stock aliases are the
fields read through `parseInt(...) || ...`. -/
structure CreateProductReq where
  name : String
  description : String := ""
  price : Int
  images : List String := []
  variants : Option (List ProductVariant) := none
  category_id : Option String := none
  total_stock : Option Int := none
  stock : Option Int := none
  totalStock : Option Int := none
deriving Repr, DecidableEq

inductive ProductError where
  | missingRequiredFields
  | productNotFound
  | unknownColumn
deriving Repr, DecidableEq

/-- createProduct (src/server/routes/products.ts lines 17-108): when a
non-empty variants list is sent, `total_stock` is the sum of variant
stocks (any client-supplied figure is discarded); otherwise it is taken
from the `total_stock` / `stock` / `totalStock` aliases through the JS
`parseInt(..) || parseInt(..) || parseInt(..) || 0` chain. -/
def createProduct (db : DB) (req : CreateProductReq) :
    Except ProductError Product × DB :=
  if req.name = "" ∨ req.description = "" then (.error .missingRequiredFields, db)
  else
    let sentVariants := req.variants.getD []
    let totalStock : Int :=
      match req.variants with
      | some vs =>
        if vs.length > 0 then variantStockSum vs
        else jsOrInt req.total_stock (jsOrInt req.stock (jsOrInt req.totalStock 0))
      | none => jsOrInt req.total_stock (jsOrInt req.stock (jsOrInt req.totalStock 0))
    let newProduct : Product := {
      id := "p" ++ toString db.products.length,
      name := req.name,
      description := req.description,
      price := req.price,
      images := req.images,
      variants := sentVariants,
      category_id := req.category_id,
      total_stock := totalStock }
    (.ok newProduct, { db with products := db.products ++ [newProduct] })

/-- Patch body of PUT /api/products/:id; `none` models an absent field. -/
structure ProductPatch where
  name : Option String := none
  description : Option String := none
  price : Option Int := none
  images : Option (List String) := none
  variants : Option (List ProductVariant) := none
  category_id : Option (Option String) := none
  total_stock : Option Int := none
  stock : Option Int := none
  totalStock : Option Int := none
deriving Repr, DecidableEq

/-- Applying a patch row-wise, as `productDb.update` spreads `updates` over
the stored row. -/
def applyProductPatch (p : Product) (patch : ProductPatch) : Product :=
  { p with
    name := patch.name.getD p.name,
    description := patch.description.getD p.description,
    price := patch.price.getD p.price,
    images := patch.images.getD p.images,
    variants := patch.variants.getD p.variants,
    category_id := patch.category_id.getD p.category_id,
    total_stock := patch.total_stock.getD p.total_stock }

/-- updateProduct (src/server/routes/products.ts lines 110-161): the route
recomputes `updates.total_stock` as the variant sum only when the patch
carries a non-empty `variants` list; otherwise it copies the `totalStock`
then `stock` alias into `total_stock` when present (`!== undefined`
checks).  The whole `updates` object is then handed to productDb.update,
which spreads it into the Supabase update; the `products` table
(migration.sql) has no `stock` or `totalStock` column, so a patch still
carrying either alias key is rejected wholesale by the store
(PostgREST unknown-column error PGRST204), the route answers 500 and
nothing is written. -/
def updateProduct (db : DB) (pid : String) (patch : ProductPatch) :
    Except ProductError Product × DB :=
  let patched : ProductPatch :=
    match patch.variants with
    | some vs =>
      if vs.length > 0 then { patch with total_stock := some (variantStockSum vs) }
      else match patch.totalStock with
        | some v => { patch with total_stock := some v }
        | none => match patch.stock with
          | some v => { patch with total_stock := some v }
          | none => patch
    | none => match patch.totalStock with
      | some v => { patch with total_stock := some v }
      | none => match patch.stock with
        | some v => { patch with total_stock := some v }
        | none => patch
  if patched.stock ≠ none ∨ patched.totalStock ≠ none then
    (.error .unknownColumn, db)
  else
    match productGetById db pid with
    | none => (.error .productNotFound, db)
    | some p =>
      let updated := applyProductPatch p patched
      (.ok updated, productUpdateRow db pid (fun q => applyProductPatch q patched))

/-- Patch body of PUT /api/orders/:id. -/
structure OrderPatch where
  customerId : Option String := none
  items : Option (List OrderItem) := none
  total : Option Int := none
  status : Option String := none
  deliveryType : Option String := none
  deliveryArea : Option String := none
  notes : Option String := none
deriving Repr, DecidableEq

/-- Applying an order patch, as orderDb.update (src/server/lib/orders-db.ts)
spreads the present fields over the stored row. -/
def applyOrderPatch (o : Order) (patch : OrderPatch) : Order :=
  { o with
    customerId := patch.customerId.getD o.customerId,
    items := patch.items.getD o.items,
    total := patch.total.getD o.total,
    status := patch.status.getD o.status,
    deliveryType := patch.deliveryType.getD o.deliveryType,
    deliveryArea := patch.deliveryArea.getD o.deliveryArea,
    notes := patch.notes.getD o.notes }

inductive UpdateOrderError where
  | orderNotFound
deriving Repr, DecidableEq

/-- updateOrder (src/server/routes/orders.ts lines 137-155): whenever the
patch carries an `items` list the route overwrites `updates.total` with
`Σ item.price * item.quantity` before handing it to orderDb.update. -/
def updateOrder (db : DB) (oid : String) (patch : OrderPatch) :
    Except UpdateOrderError Order × DB :=
  let patched : OrderPatch :=
    match patch.items with
    | some l => { patch with total := some (itemsSubtotal l) }
    | none => patch
  match db.orders.find? (fun o => o.id = oid) with
  | none => (.error .orderNotFound, db)
  | some o =>
    let updated := applyOrderPatch o patched
    (.ok updated,
      { db with orders := db.orders.map (fun q =>
          if q.id = oid then applyOrderPatch q patched else q) })

inductive CustomerError where
  | missingRequiredFields
deriving Repr, DecidableEq

/-- createCustomer (src/server/routes/customers.ts lines 14-45): name,
phone and address must be truthy; the row is then inserted as-is. -/
def createCustomer (db : DB) (name phone address : String) :
    Except CustomerError Customer × DB :=
  if name = "" ∨ phone = "" ∨ address = "" then
    (.error .missingRequiredFields, db)
  else
    let newCustomer : Customer := {
      id := "c" ++ toString db.customers.length,
      name := name, phone := phone, address := address }
    (.ok newCustomer, { db with customers := db.customers ++ [newCustomer] })

/-- deleteCategory at the storage layer: the route issues a plain DELETE on
`categories`, and `migration.sql` line 62 declares
`category_id UUID REFERENCES categories(id) ON DELETE SET NULL` on
`products`, so the database removes the category row and nulls the
reference on every product that pointed at it. -/
def deleteCategory (db : DB) (cid : String) : DB :=
  { db with
    categories := db.categories.filter (fun c => c.id ≠ cid),
    products := db.products.map (fun p =>
      if p.category_id = some cid then { p with category_id := none } else p) }

/-- Store settings read by the checkout dialog
(src/client/components/CheckoutDialog.tsx lines 40-55), with the literal
defaults used when localStorage holds no value. -/
structure StoreSettings where
  deliveryFee : Int := 1500
  freeDeliveryMinimum : Int := 20000
  deliveryAreaSitra : Int := 1000
  deliveryAreaMuharraq : Int := 1500
  deliveryAreaOther : Int := 2000
deriving Repr, DecidableEq

/-- getDeliveryFeeForArea (src/client/components/CheckoutDialog.tsx lines
325-339): zero unless delivering; zero at or above the free-delivery
minimum; otherwise the per-area tier, defaulting to the flat setting. -/
def getDeliveryFeeForArea (s : StoreSettings) (deliveryType deliveryArea : String)
    (totalPrice : Int) : Int :=
  if deliveryType ≠ "delivery" then 0
  else if totalPrice ≥ s.freeDeliveryMinimum then 0
  else if deliveryArea = "sitra" then s.deliveryAreaSitra
  else if deliveryArea = "muharraq" then s.deliveryAreaMuharraq
  else if deliveryArea = "other" then s.deliveryAreaOther
  else s.deliveryFee

inductive PlaceOrderError where
  | customerFailed (e : CustomerError)
  | orderFailed (e : OrderError)
deriving Repr, DecidableEq

/-- handlePlaceOrder (src/client/components/CheckoutDialog.tsx lines
290-376): the checkout first creates the Customer row through
POST /api/customers, then computes the client-side total (items plus
`getDeliveryFeeForArea`) and submits the order through POST /api/orders. -/
def handlePlaceOrder (s : StoreSettings) (db : DB)
    (name phone address : String) (cart : List OrderItem)
    (deliveryType deliveryArea : String) :
    Except PlaceOrderError Order × DB :=
  match createCustomer db name phone address with
  | (.error e, db1) => (.error (.customerFailed e), db1)
  | (.ok customer, db1) =>
    let totalPrice := itemsSubtotal cart
    let deliveryFee := getDeliveryFeeForArea s deliveryType deliveryArea totalPrice
    let orderTotal := totalPrice + deliveryFee
    match createOrder db1 {
        customerId := customer.id,
        items := cart,
        status := "processing",
        deliveryType := deliveryType,
        deliveryArea := deliveryArea,
        notes := "",
        total := some orderTotal } with
    | (.error e, db2) => (.error (.orderFailed e), db2)
    | (.ok order, db2) => (.ok order, db2)

/-- Admin row (src/server/lib/admin-db.ts). -/
structure AdminUser where
  id : String
  email : String
  password_hash : String
deriving Repr, DecidableEq

/-- bcrypt.hash with cost 10, abstracted as an injective deterministic
function; the claims only need that compare recognises exactly the
hash of the submitted plaintext. -/
def bcryptHash (pw : String) : String := "bcrypt10$" ++ pw

/-- bcrypt.compare, the inverse test of `bcryptHash`. -/
def bcryptCompare (pw h : String) : Bool := h = bcryptHash pw

inductive ChangePasswordResult where
  | ok
  | badRequest
  | unauthorized
  | serverError
deriving Repr, DecidableEq

/-- handleChangePassword (src/unnamed/part_012 lines 56-102) over
adminDb.verifyPassword / adminDb.updatePassword
(src/server/lib/admin-db.ts lines 33-64): the zod schema rejects an empty
current password or a new password shorter than 6 characters before
anything else; then the current password is re-verified against the stored
hash (missing admin row verifies false) and only on success is the stored
hash replaced by the hash of the new password. -/
def handleChangePassword (admin : Option AdminUser)
    (currentPassword newPassword : String) :
    ChangePasswordResult × Option AdminUser :=
  if currentPassword.length < 1 ∨ newPassword.length < 6 then
    (.badRequest, admin)
  else
    let isCurrentPasswordValid :=
      match admin with
      | none => false
      | some a => bcryptCompare currentPassword a.password_hash
    if !isCurrentPasswordValid then (.unauthorized, admin)
    else
      match admin with
      | none => (.serverError, admin)
      | some a => (.ok, some { a with password_hash := bcryptHash newPassword })

/-! ### Concrete fixtures used by witnesses and counterexamples -/

/-- A variant with 5 units in stock, as in the spec scenarios. -/
def redVariant : ProductVariant := { id := "v1", name := "Red", stock := 5 }

/-- A product priced 10.000 BD holding `redVariant`, as in the spec scenarios. -/
def widget : Product :=
  { id := "p1", name := "Widget", price := 10000,
    variants := [redVariant], total_stock := 5 }

/-- A store holding just `widget`. -/
def db0 : DB := { products := [widget] }

/-- One checkout line: quantity 3 of the 10.000 BD variant. -/
def cartQty3 : List OrderItem :=
  [ { productId := "p1", variantId := some "v1", quantity := 3, price := 10000 } ]

/-- One checkout line: quantity 6 against the stock of 5. -/
def cartQty6 : List OrderItem :=
  [ { productId := "p1", variantId := some "v1", quantity := 6, price := 10000 } ]

/-- One checkout line with subtotal 15.000 BD. -/
def cartSub15 : List OrderItem :=
  [ { productId := "p1", variantId := some "v1", quantity := 1, price := 15000 } ]

/-- One checkout line with subtotal 25.000 BD. -/
def cartSub25 : List OrderItem :=
  [ { productId := "p1", variantId := some "v1", quantity := 1, price := 25000 } ]

/-- A single order holding the same variant on two lines (3 + 3 against stock 5). -/
def doubleLineReq : CreateOrderReq :=
  { customerId := "c0", items := cartQty3 ++ cartQty3, deliveryType := "pickup" }

/-- The spec scenario order: quantity 3, pickup. -/
def pickupReq3 : CreateOrderReq :=
  { customerId := "c0", items := cartQty3, deliveryType := "pickup" }

/-- Concrete failing request used by the C1 witness. -/
def overstockReq : CreateOrderReq := { customerId := "c0", items := cartQty6 }

/-- Concrete request carrying a bogus client total, used by the C3 witness. -/
def bogusTotalReq : CreateOrderReq :=
  { customerId := "c0", items := cartSub15, deliveryType := "delivery",
    total := some 1 }

/-- The order the server actually stores for `bogusTotalReq`. -/
def storedOrder15 : Order :=
  { id := "0", customerId := "c0", items := cartSub15, total := 16500,
    status := "processing", deliveryType := "delivery",
    deliveryArea := "sitra", notes := "" }

/-- Existing stored order used by the C8 witness. -/
def dbWithOrder : DB := { products := [widget], orders := [storedOrder15] }

/-- Patch replacing the items and smuggling a stale total of 0.001 BD. -/
def itemsPatch : OrderPatch := { items := some cartQty3, total := some 1 }

/-- The order as stored after the C8 witness patch. -/
def patchedOrder : Order :=
  { storedOrder15 with items := cartQty3, total := 30000 }

/-- The seeded admin row, hash of the migration's default password. -/
def adminRow : AdminUser :=
  { id := "a1", email := "admin@example.com",
    password_hash := bcryptHash "password" }

/-- A category and two products, one referencing it, for the C10 witness. -/
def electronics : Category := { id := "cat1", name := "Electronics" }

/-- A product referencing `electronics`. -/
def phone : Product :=
  { id := "p2", name := "Phone", price := 99000, variants := [],
    category_id := some "cat1", total_stock := 3 }

/-- A store with the category, the referencing product and `widget`. -/
def dbCat : DB := { categories := [electronics], products := [phone, widget] }

/-- Create request with two variants and a bogus client total_stock. -/
def shirtReq : CreateProductReq :=
  { name := "Shirt", description := "Cotton", price := 5000,
    variants := some [ { id := "s", name := "S", stock := 2 },
                       { id := "m", name := "M", stock := 3 } ],
    total_stock := some 42 }

/-- The product createProduct stores for `shirtReq`. -/
def shirtProd : Product :=
  { id := "p0", name := "Shirt", description := "Cotton", price := 5000,
    variants := [ { id := "s", name := "S", stock := 2 },
                  { id := "m", name := "M", stock := 3 } ],
    total_stock := 5 }

/-- Create request with no variants using the `stock` alias. -/
def mugReq : CreateProductReq :=
  { name := "Mug", description := "Ceramic", price := 2000, stock := some 7 }

/-- The product createProduct stores for `mugReq`. -/
def mugProd : Product :=
  { id := "p0", name := "Mug", description := "Ceramic", price := 2000,
    variants := [], total_stock := 7 }

/-- Patch replacing widget's variants by one with 9 in stock. -/
def nineVariantPatch : ProductPatch :=
  { variants := some [ { id := "v1", name := "Red", stock := 9 } ] }

/-- The row stored after `nineVariantPatch`. -/
def widgetNine : Product :=
  { widget with
    variants := [ { id := "v1", name := "Red", stock := 9 } ],
    total_stock := 9 }

/-- One decremented line (quantity 2 of variant v1). -/
def lineQty2 : OrderItem :=
  { productId := "p1", variantId := some "v1", quantity := 2, price := 10000 }

/-- The widget row after decrementing `lineQty2`. -/
def widgetAfter2 : Product :=
  { widget with
    variants := [ { redVariant with stock := 3 } ],
    total_stock := 3 }

/-- Second sequential order: quantity 2 of the same variant, pickup. -/
def pickupReq2 : CreateOrderReq :=
  { customerId := "c1",
    items := [ { productId := "p1", variantId := some "v1", quantity := 2,
                 price := 10000 } ],
    deliveryType := "pickup" }

/-- Two-line cart for the C4 witness: the first line passes every check
(quantity 1 against stock 5), the second oversells (6 against 5). -/
def twoLineReq : CreateOrderReq :=
  { customerId := "c0",
    items := [ { productId := "p1", variantId := some "v1", quantity := 1,
                 price := 10000 },
               { productId := "p1", variantId := some "v1", quantity := 6,
                 price := 10000 } ] }


/-- Total quantity across a list of order lines. -/
def totalQty (items : List OrderItem) : Int :=
  items.foldl (fun s i => s + i.quantity) 0

/-- Total quantity the lines demand from the variant with id `vid`
(an item addresses a variant through `item.variantId.getD ""`). -/
def itemsDemand (items : List OrderItem) (vid : String) : Int :=
  items.foldl (fun s i =>
    if i.variantId.getD "" = vid then s + i.quantity else s) 0

/-- The variant-path decrement one order line applies to a variants list
(the map of src/server/routes/orders.ts lines 109-113). -/
def decrVariants (vs : List ProductVariant) (i : OrderItem) :
    List ProductVariant :=
  vs.map (fun w => if w.id = i.variantId.getD "" then
    { w with stock := w.stock - i.quantity } else w)

/-- A product with one variant (stock 10) and the variant-sum invariant
holding (total_stock 10). -/
def gadget : Product :=
  { id := "p9", name := "Gadget", price := 5000,
    variants := [ { id := "w1", name := "Blue", stock := 10 } ],
    total_stock := 10 }

/-- A store holding just `gadget`. -/
def db9 : DB := { products := [gadget] }

/-- First order: a variant-less line of quantity 2 (checked and decremented
against total_stock). -/
def plainReq : CreateOrderReq :=
  { customerId := "c0",
    items := [ { productId := "p9", variantId := none, quantity := 2,
                 price := 5000 } ],
    deliveryType := "pickup" }

/-- Second order: quantity 3 of the variant. -/
def variantReq : CreateOrderReq :=
  { customerId := "c1",
    items := [ { productId := "p9", variantId := some "w1", quantity := 3,
                 price := 5000 } ],
    deliveryType := "pickup" }

/-! ### Shared lemmas about createOrder -/

/-- Every error branch of createOrder returns before orderDb.create and the
stock loop run, so the store is returned unchanged. -/
theorem createOrder_error_preserves_db (db : DB) (req : CreateOrderReq)
    (e : OrderError) (h : (createOrder db req).1 = .error e) :
    (createOrder db req).2 = db := by
  by_cases h1 : req.customerId = ""
  · simp [createOrder, h1]
  · by_cases h2 : req.items.isEmpty
    · simp [createOrder, h1, h2]
    · cases hv : validateItems db req.items with
      | some e2 => simp [createOrder, h1, h2, hv]
      | none => simp [createOrder, h1, h2, hv] at h

/-- On success the stored total is the server-side recomputation:
items subtotal plus the flat fee. -/
theorem createOrder_ok_total (db : DB) (req : CreateOrderReq) (o : Order)
    (h : (createOrder db req).1 = .ok o) :
    o.total = itemsSubtotal req.items +
      (if req.deliveryType = "delivery" then 1500 else 0) := by
  by_cases h1 : req.customerId = ""
  · simp [createOrder, h1] at h
  · by_cases h2 : req.items.isEmpty
    · simp [createOrder, h1, h2] at h
    · cases hv : validateItems db req.items with
      | some e2 => simp [createOrder, h1, h2, hv] at h
      | none =>
        simp [createOrder, h1, h2, hv] at h
        subst h
        rfl

/-- Claim C1 (counterexample): the claim says a failed validation creates no
Customer row, but the checkout flow (CheckoutDialog.handlePlaceOrder) creates
the Customer through POST /api/customers before the order request is
validated, so a placement rejected for insufficient stock still leaves a
freshly inserted Customer row. -/
theorem C1_counterexample :
    (handlePlaceOrder {} db0 "Alice" "33001122" "Sitra Block 604" cartQty6
        "delivery" "sitra").1 =
      .error (.orderFailed (.insufficientStock "Widget" (some "Red") 5 6)) ∧
    db0.customers = [] ∧
    (handlePlaceOrder {} db0 "Alice" "33001122" "Sitra Block 604" cartQty6
        "delivery" "sitra").2.customers =
      [{ id := "c0", name := "Alice", phone := "33001122",
         address := "Sitra Block 604" }] := by
  decide

/-- Claim C1 (amended): within the server-side createOrder handler every
validation failure (missing customer id, empty items, bad item fields,
unknown product or variant, insufficient stock) returns before any write:
the orders, the products (hence every product- and variant-stock value) and
the customers of the store are exactly those before the call.  The Customer
row of a failed placement is created earlier by the checkout client, not by
this handler. -/
theorem C1_validation_failure_no_side_effects (db : DB) (req : CreateOrderReq)
    (e : OrderError) (h : (createOrder db req).1 = .error e) :
    (createOrder db req).2.orders = db.orders ∧
    (createOrder db req).2.products = db.products ∧
    (createOrder db req).2.customers = db.customers := by
  rw [createOrder_error_preserves_db db req e h]
  exact ⟨rfl, rfl, rfl⟩

theorem C1_witness :
    (createOrder db0 overstockReq).1 =
      .error (.insufficientStock "Widget" (some "Red") 5 6) ∧
    ((createOrder db0 overstockReq).2.orders = db0.orders ∧
      (createOrder db0 overstockReq).2.products = db0.products ∧
      (createOrder db0 overstockReq).2.customers = db0.customers) :=
  ⟨by decide,
   C1_validation_failure_no_side_effects db0 overstockReq
     (.insufficientStock "Widget" (some "Red") 5 6) (by decide)⟩

/-- Claim C2 (counterexample): with area sitra (tier fee 1.000), subtotal
15.000 and the default threshold 20.000, the claim says the order's delivery
fee is 1.000 and its total 16.000; the server stores total 16.500 (flat
1.500 fee), so the claim is false for the placed order. -/
theorem C2_counterexample :
    (handlePlaceOrder {} db0 "Alice" "33001122" "Sitra Block 604" cartSub15
        "delivery" "sitra").1.map Order.total = .ok 16500 ∧
    (16500 : Int) ≠ 16000 := by
  decide

/-- Claim C2 (amended): the tiered fee (pickup 0; 0 at or above the
free-delivery threshold; else the per-area tier, defaulting to the flat
setting) is computed only client-side by getDeliveryFeeForArea and only
affects the total the client submits, which the server discards; the stored
total always uses a flat 1.500 fee for delivery and 0 for pickup.  With
area sitra (fee 1.000), subtotal 15.000, threshold 20.000 the client fee is
1.000 but the stored total is 16.500; with subtotal 25.000 the client fee
is 0 but the stored total is 26.500; for pickup the stored total equals the
subtotal. -/
theorem C2_delivery_fee :
    getDeliveryFeeForArea {} "delivery" "sitra" 15000 = 1000 ∧
    getDeliveryFeeForArea {} "delivery" "sitra" 25000 = 0 ∧
    getDeliveryFeeForArea {} "pickup" "sitra" 15000 = 0 ∧
    (handlePlaceOrder {} db0 "Alice" "33001122" "Sitra Block 604" cartSub15
        "delivery" "sitra").1.map Order.total = .ok 16500 ∧
    (handlePlaceOrder {} db0 "Alice" "33001122" "Sitra Block 604" cartSub25
        "delivery" "sitra").1.map Order.total = .ok 26500 ∧
    (createOrder db0
        { customerId := "c0", items := cartSub15, deliveryType := "pickup" }
      ).1.map Order.total = .ok 15000 := by
  decide

/-- Claim C3: on every successful order creation the stored total is
recomputed server-side as `Σ item.price * item.quantity` plus the computed
delivery fee, and the total submitted in the request body is ignored
entirely (the route destructures it and never reads it). -/
theorem C3_total_recomputed_server_side (db : DB) (req : CreateOrderReq)
    (o : Order) (h : (createOrder db req).1 = .ok o) :
    o.total = itemsSubtotal req.items +
      (if req.deliveryType = "delivery" then 1500 else 0) ∧
    ∀ t, createOrder db { req with total := t } = createOrder db req := by
  refine ⟨createOrder_ok_total db req o h, fun t => rfl⟩

theorem C3_witness :
    ((createOrder db0 bogusTotalReq).1 = .ok storedOrder15) ∧
    storedOrder15.total = itemsSubtotal bogusTotalReq.items +
      (if bogusTotalReq.deliveryType = "delivery" then 1500 else 0) ∧
    createOrder db0 { bogusTotalReq with total := some 999999 } =
      createOrder db0 bogusTotalReq :=
  ⟨by decide,
   (C3_total_recomputed_server_side db0 bogusTotalReq storedOrder15
      (by decide)).1,
   (C3_total_recomputed_server_side db0 bogusTotalReq storedOrder15
      (by decide)).2 (some 999999)⟩

/-- Validation is per-item and stateless (no write happens during the scan),
so a prefix that passes every check does not affect the scan of the rest. -/
theorem validateItems_append_none (db : DB) (pre l : List OrderItem)
    (hpre : validateItems db pre = none) :
    validateItems db (pre ++ l) = validateItems db l := by
  induction pre with
  | nil => rfl
  | cons item t ih =>
    rw [List.cons_append]
    by_cases h1 : item.productId = ""
    · simp [validateItems, h1] at hpre
    · by_cases h2 : item.quantity = 0
      · simp [validateItems, h1, h2] at hpre
      · by_cases h3 : item.price = 0
        · simp [validateItems, h1, h2, h3] at hpre
        · by_cases h4 : item.quantity ≤ 0
          · simp [validateItems, h1, h2, h3, h4] at hpre
          · by_cases h5 : item.price < 0
            · simp [validateItems, h1, h2, h3, h4, h5] at hpre
            · cases hgp : productGetById db item.productId with
              | none =>
                simp [validateItems, h1, h2, h3, h4, h5, hgp] at hpre
              | some product =>
                cases hsel : hasVariantSelector item with
                | true =>
                  cases hfv : product.variants.find?
                      (fun w => w.id = item.variantId.getD "") with
                  | none =>
                    simp [validateItems, h1, h2, h3, h4, h5, hgp, hsel,
                      hfv] at hpre
                  | some variant =>
                    by_cases h7 : variant.stock < item.quantity
                    · simp [validateItems, h1, h2, h3, h4, h5, hgp, hsel,
                        hfv, h7] at hpre
                    · have hpre2 : validateItems db t = none := by
                        simpa [validateItems, h1, h2, h3, h4, h5, hgp, hsel,
                          hfv, h7] using hpre
                      simp [validateItems, h1, h2, h3, h4, h5, hgp, hsel,
                        hfv, h7]
                      exact ih hpre2
                | false =>
                  by_cases h8 : product.total_stock < item.quantity
                  · simp [validateItems, h1, h2, h3, h4, h5, hgp, hsel,
                      h8] at hpre
                  · have hpre2 : validateItems db t = none := by
                      simpa [validateItems, h1, h2, h3, h4, h5, hgp, hsel,
                        h8] using hpre
                    simp [validateItems, h1, h2, h3, h4, h5, hgp, hsel, h8]
                    exact ih hpre2

/-- Claim C4: the stock check applies to each item of the cart —
`variant.stock ≥ quantity` for a variant-bearing item (variantId present
and not the "no-variant" sentinel) and `product.total_stock ≥ quantity`
for a variant-less item; the first violating item, at any position after
earlier items that all pass, fails the whole request — whatever items
follow — with an insufficient-stock error naming the product (and
variant), the available quantity and the requested quantity, and the
store (hence every stock value) is left unchanged. -/
theorem C4_stock_check_first_violation (db : DB) (req : CreateOrderReq)
    (pre : List OrderItem) (item : OrderItem) (rest : List OrderItem)
    (p : Product)
    (hreq : req.items = pre ++ item :: rest)
    (hpre : validateItems db pre = none)
    (hcid : req.customerId ≠ "")
    (hpid : item.productId ≠ "")
    (hq : 0 < item.quantity) (hpr : 0 < item.price)
    (hp : productGetById db item.productId = some p) :
    (∀ v, hasVariantSelector item = true →
      p.variants.find? (fun w => w.id = item.variantId.getD "") = some v →
      v.stock < item.quantity →
      createOrder db req =
        (.error (.insufficientStock p.name (some v.name) v.stock
          item.quantity), db)) ∧
    (hasVariantSelector item = false → p.total_stock < item.quantity →
      createOrder db req =
        (.error (.insufficientStock p.name none p.total_stock item.quantity),
         db)) := by
  have hq0 : ¬ item.quantity = 0 := by omega
  have hqle : ¬ item.quantity ≤ 0 := by omega
  have hpr0 : ¬ item.price = 0 := by omega
  have hprlt : ¬ item.price < 0 := by omega
  have hemp : req.items.isEmpty = false := by
    rw [hreq]; cases pre <;> rfl
  have hval : validateItems db req.items = validateItems db (item :: rest) := by
    rw [hreq]; exact validateItems_append_none db pre (item :: rest) hpre
  constructor
  · intro v hsel hfind hstock
    simp [createOrder, hemp, hcid, hval, validateItems, hpid, hq0, hpr0,
      hqle, hprlt, hp, hsel, hfind, hstock]
  · intro hsel hstock
    simp [createOrder, hemp, hcid, hval, validateItems, hpid, hq0, hpr0,
      hqle, hprlt, hp, hsel, hstock]

theorem C4_witness :
    createOrder db0 overstockReq =
      (.error (.insufficientStock "Widget" (some "Red") 5 6), db0) ∧
    createOrder db0 twoLineReq =
      (.error (.insufficientStock "Widget" (some "Red") 5 6), db0) ∧
    (productGetById db0 "p1").map
      (fun p => p.variants.map ProductVariant.stock) = some [5] :=
  ⟨(C4_stock_check_first_violation db0 overstockReq []
      { productId := "p1", variantId := some "v1", quantity := 6,
        price := 10000 }
      [] widget (by decide) (by decide) (by decide) (by decide) (by decide)
      (by decide) (by decide)).1
    redVariant (by decide) (by decide) (by decide),
   (C4_stock_check_first_violation db0 twoLineReq
      [ { productId := "p1", variantId := some "v1", quantity := 1,
          price := 10000 } ]
      { productId := "p1", variantId := some "v1", quantity := 6,
        price := 10000 }
      [] widget (by decide) (by decide) (by decide) (by decide) (by decide)
      (by decide) (by decide)).1
    redVariant (by decide) (by decide) (by decide),
   by decide⟩

/-- Claim C7: a single order can list the same variant twice, each line
individually within the stored stock (3 ≤ 5) but jointly beyond it
(3 + 3 > 5); each line is validated against the same stored value, the
decrement loop subtracts both, and the variant path has no Math.max floor,
so createOrder succeeds and leaves the variant stock and the product
total_stock negative. -/
theorem C7_double_line_negative_stock :
    (createOrder db0 doubleLineReq).1.isOk = true ∧
    doubleLineReq.items.all
      (fun i => decide (i.quantity ≤ redVariant.stock)) = true ∧
    redVariant.stock < doubleLineReq.items.foldl (fun s i => s + i.quantity) 0 ∧
    (productGetById (createOrder db0 doubleLineReq).2 "p1").map
      Product.total_stock = some (-1) ∧
    (productGetById (createOrder db0 doubleLineReq).2 "p1").map
      (fun p => p.variants.map ProductVariant.stock) = some [-1] := by
  decide

/-- Claim C8: whenever the PUT /api/orders/:id patch carries an items list,
updateOrder overwrites the stored total with `Σ item.price * item.quantity`
over those items, and the value in the patch's total field has no influence
on the outcome. -/
theorem C8_update_order_recomputes_total (db : DB) (oid : String)
    (patch : OrderPatch) (l : List OrderItem) (o : Order)
    (hl : patch.items = some l)
    (h : (updateOrder db oid patch).1 = .ok o) :
    o.total = itemsSubtotal l ∧
    ∀ t, updateOrder db oid { patch with total := t } =
      updateOrder db oid patch := by
  obtain ⟨pc, pi, pt, ps, pd, pa, pn⟩ := patch
  obtain rfl : pi = some l := hl
  constructor
  · cases hf : db.orders.find? (fun q => q.id = oid) with
    | none => simp [updateOrder, hf] at h
    | some o0 =>
      simp [updateOrder, hf] at h
      subst h
      simp [applyOrderPatch]
  · intro t
    rfl

theorem C8_witness :
    ((updateOrder dbWithOrder "0" itemsPatch).1 = .ok patchedOrder) ∧
    patchedOrder.total = itemsSubtotal cartQty3 ∧
    updateOrder dbWithOrder "0" { itemsPatch with total := some 999999 } =
      updateOrder dbWithOrder "0" itemsPatch :=
  ⟨by decide,
   (C8_update_order_recomputes_total dbWithOrder "0" itemsPatch cartQty3
      patchedOrder (by decide) (by decide)).1,
   (C8_update_order_recomputes_total dbWithOrder "0" itemsPatch cartQty3
      patchedOrder (by decide) (by decide)).2 (some 999999)⟩

/-- Claim C9: handleChangePassword rejects a new password shorter than 6
characters before touching anything; with an acceptable new password it
re-verifies the submitted current password and answers Unauthorized on a
mismatch; both failures leave the stored admin row (hence the password
hash) unchanged; and a success implies the current password verified, the
stored hash becoming the hash of the new password. -/
theorem C9_change_password (admin : AdminUser) (currentPw newPw : String) :
    (newPw.length < 6 →
      handleChangePassword (some admin) currentPw newPw =
        (.badRequest, some admin)) ∧
    (1 ≤ currentPw.length → 6 ≤ newPw.length →
      bcryptCompare currentPw admin.password_hash = false →
      handleChangePassword (some admin) currentPw newPw =
        (.unauthorized, some admin)) ∧
    (∀ adm2, handleChangePassword (some admin) currentPw newPw = (.ok, adm2) →
      bcryptCompare currentPw admin.password_hash = true ∧
      adm2 = some { admin with password_hash := bcryptHash newPw }) := by
  refine ⟨fun hshort => ?_, fun hcur hlen hbad => ?_, fun adm2 h => ?_⟩
  · simp [handleChangePassword, hshort]
  · have hc0 : ¬ currentPw.length = 0 := by omega
    have hl6 : ¬ newPw.length < 6 := by omega
    simp [handleChangePassword, hc0, hl6, hbad]
  · by_cases hz : currentPw.length = 0 ∨ newPw.length < 6
    · simp [handleChangePassword, hz] at h
    · push_neg at hz
      have hc0 : ¬ currentPw.length = 0 := hz.1
      have hl6 : ¬ newPw.length < 6 := by omega
      cases hcmp : bcryptCompare currentPw admin.password_hash with
      | false => simp [handleChangePassword, hc0, hl6, hcmp] at h
      | true =>
        simp [handleChangePassword, hc0, hl6, hcmp] at h
        exact ⟨rfl, h.symm⟩

theorem C9_witness :
    (handleChangePassword (some adminRow) "password" "abc" =
      (.badRequest, some adminRow)) ∧
    (handleChangePassword (some adminRow) "guess123" "secret123" =
      (.unauthorized, some adminRow)) ∧
    (bcryptCompare "password" adminRow.password_hash = true ∧
      (handleChangePassword (some adminRow) "password" "secret123").2 =
        some { adminRow with password_hash := bcryptHash "secret123" }) :=
  ⟨(C9_change_password adminRow "password" "abc").1 (by decide),
   (C9_change_password adminRow "guess123" "secret123").2.1 (by decide)
     (by decide) (by decide),
   (C9_change_password adminRow "password" "secret123").2.2
     (handleChangePassword (some adminRow) "password" "secret123").2
     (by decide)⟩

/-- Claim C10: deleting a category referenced by existing products always
succeeds at the storage layer (the row is gone afterwards); no product row
is deleted; every product that referenced the category survives with
`category_id` nulled and all other fields unchanged; products not
referencing it are untouched. -/
theorem C10_delete_category_detaches (db : DB) (c : Category) (p : Product)
    (_hc : c ∈ db.categories) (hp : p ∈ db.products)
    (href : p.category_id = some c.id) :
    (∀ c2 ∈ (deleteCategory db c.id).categories, c2.id ≠ c.id) ∧
    (deleteCategory db c.id).products.length = db.products.length ∧
    { p with category_id := none } ∈ (deleteCategory db c.id).products ∧
    (∀ q ∈ db.products, q.category_id ≠ some c.id →
      q ∈ (deleteCategory db c.id).products) := by
  refine ⟨fun c2 h2 => ?_, ?_, ?_, fun q hq hne => ?_⟩
  · simp [deleteCategory, List.mem_filter] at h2
    exact h2.2
  · simp [deleteCategory]
  · have hm := List.mem_map_of_mem
      (f := fun q => if q.category_id = some c.id
        then { q with category_id := none } else q) hp
    simpa [deleteCategory, href] using hm
  · have hm := List.mem_map_of_mem
      (f := fun q2 => if q2.category_id = some c.id
        then { q2 with category_id := none } else q2) hq
    simpa [deleteCategory, hne] using hm

theorem C10_witness :
    (deleteCategory dbCat electronics.id).products.length =
      dbCat.products.length ∧
    { phone with category_id := none } ∈
      (deleteCategory dbCat electronics.id).products ∧
    widget ∈ (deleteCategory dbCat electronics.id).products :=
  ⟨(C10_delete_category_detaches dbCat electronics phone (by decide)
      (by decide) (by decide)).2.1,
   (C10_delete_category_detaches dbCat electronics phone (by decide)
      (by decide) (by decide)).2.2.1,
   (C10_delete_category_detaches dbCat electronics phone (by decide)
      (by decide) (by decide)).2.2.2 widget (by decide) (by decide)⟩

/-- After the variant-path stock decrement the updated row satisfies the
variant-sum invariant (its total_stock was recomputed from its variants). -/
theorem reduceStock_variant_path_invariant (db : DB) (item : OrderItem)
    (p : Product) (hsel : hasVariantSelector item = true)
    (hp : productGetById (reduceStockForItem db item) item.productId = some p) :
    p.total_stock = variantStockSum p.variants := by
  cases horig : productGetById db item.productId with
  | none =>
    rw [reduceStockForItem] at hp
    rw [horig] at hp
    rw [horig] at hp
    cases hp
  | some q =>
    have hq2 : db.products.find? (fun r => r.id = item.productId) = some q :=
      horig
    have hqid : q.id = item.productId := by
      have hq3 := List.find?_some hq2
      simpa using hq3
    simp only [reduceStockForItem, productGetById, productUpdateRow, hq2,
      hsel, if_true] at hp
    have hpid : p.id = item.productId := by
      have hp2 := List.find?_some hp
      simpa using hp2
    have hmem := List.mem_of_find?_eq_some hp
    obtain ⟨r, hr, hfr⟩ := List.mem_map.mp hmem
    by_cases hrid : r.id = q.id
    · rw [if_pos hrid] at hfr
      subst hfr
      rfl
    · rw [if_neg hrid] at hfr
      subst hfr
      exact absurd (hpid.trans hqid.symm) hrid

/-- Claim C5 (counterexample): a product with a non-empty variants list and
a PUT patch carrying only a direct `total_stock` value (a real column, no
variants key): updateProduct applies it without recomputation and leaves
the variants unchanged, so the stored total_stock (999) no longer equals
the variant sum (5). -/
theorem C5_counterexample :
    widget.variants ≠ [] ∧
    (updateProduct db0 "p1" { total_stock := some 999 }).1 =
      .ok { widget with total_stock := 999 } ∧
    (updateProduct db0 "p1" { total_stock := some 999 }).2.products =
      [{ widget with total_stock := 999 }] ∧
    variantStockSum ({ widget with total_stock := 999 } : Product).variants = 5 ∧
    (999 : Int) ≠ 5 := by
  decide

/-- Claim C5 (amended): the variant-sum invariant is re-established on every
product create whose request carries a non-empty variants list (the client
total_stock being discarded), on every product update whose patch carries a
non-empty variants list, and on every order-driven decrement that goes
through the variant path; with no variants (absent or empty) on create,
total_stock comes from the client aliases total_stock / stock / totalStock.
On update the stock / totalStock alias keys are forwarded to the store and
rejected as unknown columns, so they never write; but an update patch
carrying a direct total_stock value without variants, or a variant-less
order item, does not re-establish the invariant for a product that has
variants. -/
theorem C5_variant_sum_invariant :
    (∀ (db : DB) (req : CreateProductReq) (vs : List ProductVariant)
      (p : Product), req.variants = some vs → vs ≠ [] →
      (createProduct db req).1 = .ok p →
      p.variants = vs ∧ p.total_stock = variantStockSum p.variants) ∧
    (∀ (db : DB) (req : CreateProductReq) (p : Product),
      (req.variants = none ∨ req.variants = some []) →
      (createProduct db req).1 = .ok p →
      p.total_stock =
        jsOrInt req.total_stock (jsOrInt req.stock (jsOrInt req.totalStock 0))) ∧
    (∀ (db : DB) (pid : String) (patch : ProductPatch)
      (vs : List ProductVariant) (p : Product),
      patch.variants = some vs → vs ≠ [] →
      (updateProduct db pid patch).1 = .ok p →
      p.variants = vs ∧ p.total_stock = variantStockSum p.variants) ∧
    (∀ (db : DB) (item : OrderItem) (p : Product),
      hasVariantSelector item = true →
      productGetById (reduceStockForItem db item) item.productId = some p →
      p.total_stock = variantStockSum p.variants) := by
  refine ⟨?_, ?_, ?_, fun db item p hsel hp =>
    reduceStock_variant_path_invariant db item p hsel hp⟩
  · intro db req vs p hvs hne h
    by_cases hbad : req.name = "" ∨ req.description = ""
    · simp [createProduct, hbad] at h
    · have hlen : 0 < vs.length := List.length_pos.mpr hne
      simp [createProduct, hbad, hvs, hlen] at h
      subst h
      exact ⟨rfl, rfl⟩
  · intro db req p hvs h
    by_cases hbad : req.name = "" ∨ req.description = ""
    · simp [createProduct, hbad] at h
    · cases hvs with
      | inl hnone =>
        simp [createProduct, hbad, hnone] at h
        subst h
        rfl
      | inr hnil =>
        simp [createProduct, hbad, hnil] at h
        subst h
        rfl
  · intro db pid patch vs p hvs hne h
    have hlen : 0 < vs.length := List.length_pos.mpr hne
    by_cases halias : patch.stock ≠ none ∨ patch.totalStock ≠ none
    · simp [updateProduct, hvs, hlen, halias] at h
    · push_neg at halias
      cases hq : productGetById db pid with
      | none => simp [updateProduct, hvs, hlen, halias.1, halias.2, hq] at h
      | some q =>
        simp [updateProduct, hvs, hlen, halias.1, halias.2, hq] at h
        subst h
        exact ⟨rfl, rfl⟩

theorem C5_witness :
    (shirtProd.variants = [ { id := "s", name := "S", stock := 2 },
        { id := "m", name := "M", stock := 3 } ] ∧
      shirtProd.total_stock = variantStockSum shirtProd.variants) ∧
    mugProd.total_stock =
      jsOrInt mugReq.total_stock (jsOrInt mugReq.stock (jsOrInt mugReq.totalStock 0)) ∧
    (widgetNine.variants = [ { id := "v1", name := "Red", stock := 9 } ] ∧
      widgetNine.total_stock = variantStockSum widgetNine.variants) ∧
    widgetAfter2.total_stock = variantStockSum widgetAfter2.variants :=
  ⟨C5_variant_sum_invariant.1 {} shirtReq
      [ { id := "s", name := "S", stock := 2 },
        { id := "m", name := "M", stock := 3 } ]
      shirtProd (by decide) (by decide) (by decide),
   C5_variant_sum_invariant.2.1 {} mugReq mugProd (Or.inl (by decide))
     (by decide),
   C5_variant_sum_invariant.2.2.1 db0 "p1" nineVariantPatch
     [ { id := "v1", name := "Red", stock := 9 } ] widgetNine (by decide)
     (by decide) (by decide),
   C5_variant_sum_invariant.2.2.2 db0 lineQty2 widgetAfter2 (by decide)
     (by decide)⟩

theorem totalQty_foldl (l : List OrderItem) (s : Int) :
    l.foldl (fun a i => a + i.quantity) s = s + totalQty l := by
  induction l generalizing s with
  | nil => simp [totalQty]
  | cons i t ih =>
    have h1 : (i :: t).foldl (fun a j => a + j.quantity) s =
        t.foldl (fun a j => a + j.quantity) (s + i.quantity) := rfl
    have h2 : totalQty (i :: t) =
        t.foldl (fun a j => a + j.quantity) (0 + i.quantity) := rfl
    rw [h1, ih, h2, ih]
    ring

theorem totalQty_cons (i : OrderItem) (l : List OrderItem) :
    totalQty (i :: l) = i.quantity + totalQty l := by
  have h : totalQty (i :: l) =
      l.foldl (fun a j => a + j.quantity) (0 + i.quantity) := rfl
  rw [h, totalQty_foldl]
  ring

theorem totalQty_append (l1 l2 : List OrderItem) :
    totalQty (l1 ++ l2) = totalQty l1 + totalQty l2 := by
  induction l1 with
  | nil => simp [totalQty]
  | cons i t ih =>
    rw [List.cons_append, totalQty_cons, totalQty_cons, ih]
    ring

theorem totalQty_nonneg (l : List OrderItem) (h : ∀ i ∈ l, 0 < i.quantity) :
    0 ≤ totalQty l := by
  induction l with
  | nil => simp [totalQty]
  | cons i t ih =>
    rw [totalQty_cons]
    have h1 := h i (by simp)
    have h2 := ih (fun j hj => h j (by simp [hj]))
    omega

theorem quantity_le_totalQty (l : List OrderItem) (i : OrderItem)
    (h : ∀ j ∈ l, 0 < j.quantity) (hi : i ∈ l) :
    i.quantity ≤ totalQty l := by
  induction l with
  | nil => cases hi
  | cons x t ih =>
    rw [totalQty_cons]
    rcases List.mem_cons.mp hi with rfl | hmem
    · have := totalQty_nonneg t (fun j hj => h j (by simp [hj]))
      omega
    · have h1 := h x (by simp)
      have h2 := ih (fun j hj => h j (by simp [hj])) hmem
      omega

theorem itemsDemand_foldl (l : List OrderItem) (vid : String) (s : Int) :
    l.foldl (fun a i =>
        if i.variantId.getD "" = vid then a + i.quantity else a) s =
      s + itemsDemand l vid := by
  induction l generalizing s with
  | nil => simp [itemsDemand]
  | cons i t ih =>
    have h1 : (i :: t).foldl (fun a j =>
        if j.variantId.getD "" = vid then a + j.quantity else a) s =
      t.foldl (fun a j =>
        if j.variantId.getD "" = vid then a + j.quantity else a)
        (if i.variantId.getD "" = vid then s + i.quantity else s) := rfl
    have h2 : itemsDemand (i :: t) vid =
      t.foldl (fun a j =>
        if j.variantId.getD "" = vid then a + j.quantity else a)
        (if i.variantId.getD "" = vid then 0 + i.quantity else 0) := rfl
    rw [h1, ih, h2, ih]
    by_cases hv : i.variantId.getD "" = vid
    · rw [if_pos hv, if_pos hv]; ring
    · rw [if_neg hv, if_neg hv]; ring

theorem itemsDemand_cons (i : OrderItem) (l : List OrderItem) (vid : String) :
    itemsDemand (i :: l) vid =
      (if i.variantId.getD "" = vid then i.quantity else 0) +
        itemsDemand l vid := by
  have h : itemsDemand (i :: l) vid =
      l.foldl (fun a j =>
        if j.variantId.getD "" = vid then a + j.quantity else a)
        (if i.variantId.getD "" = vid then 0 + i.quantity else 0) := rfl
  rw [h, itemsDemand_foldl]
  by_cases hv : i.variantId.getD "" = vid
  · rw [if_pos hv, if_pos hv]; ring
  · simp [hv]

theorem itemsDemand_append (l1 l2 : List OrderItem) (vid : String) :
    itemsDemand (l1 ++ l2) vid = itemsDemand l1 vid + itemsDemand l2 vid := by
  induction l1 with
  | nil => simp [itemsDemand]
  | cons i t ih =>
    rw [List.cons_append, itemsDemand_cons, itemsDemand_cons, ih]
    ring

theorem itemsDemand_nonneg (l : List OrderItem) (vid : String)
    (h : ∀ i ∈ l, 0 < i.quantity) :
    0 ≤ itemsDemand l vid := by
  induction l with
  | nil => simp [itemsDemand]
  | cons i t ih =>
    rw [itemsDemand_cons]
    have h1 := h i (by simp)
    have h2 := ih (fun j hj => h j (by simp [hj]))
    by_cases hv : i.variantId.getD "" = vid
    · rw [if_pos hv]; omega
    · rw [if_neg hv]; omega

theorem quantity_le_itemsDemand (l : List OrderItem) (i : OrderItem)
    (h : ∀ j ∈ l, 0 < j.quantity) (hi : i ∈ l) :
    i.quantity ≤ itemsDemand l (i.variantId.getD "") := by
  induction l with
  | nil => cases hi
  | cons x t ih =>
    rw [itemsDemand_cons]
    rcases List.mem_cons.mp hi with rfl | hmem
    · rw [if_pos rfl]
      have := itemsDemand_nonneg t (i.variantId.getD "")
        (fun j hj => h j (by simp [hj]))
      omega
    · have h2 := ih (fun j hj => h j (by simp [hj])) hmem
      have h1 := h x (by simp)
      by_cases hv : x.variantId.getD "" = i.variantId.getD ""
      · rw [if_pos hv]; omega
      · rw [if_neg hv]; omega

theorem variantStockSum_foldl (vs : List ProductVariant) (s : Int) :
    vs.foldl (fun a w => a + w.stock) s = s + variantStockSum vs := by
  induction vs generalizing s with
  | nil => simp [variantStockSum]
  | cons w t ih =>
    have h1 : (w :: t).foldl (fun a x => a + x.stock) s =
        t.foldl (fun a x => a + x.stock) (s + w.stock) := rfl
    have h2 : variantStockSum (w :: t) =
        t.foldl (fun a x => a + x.stock) (0 + w.stock) := rfl
    rw [h1, ih, h2, ih]
    ring

theorem variantStockSum_cons (w : ProductVariant) (vs : List ProductVariant) :
    variantStockSum (w :: vs) = w.stock + variantStockSum vs := by
  have h : variantStockSum (w :: vs) =
      vs.foldl (fun a x => a + x.stock) (0 + w.stock) := rfl
  rw [h, variantStockSum_foldl]
  ring

/-- One decrement step only touches the stock figure of the addressed
variant: the first variant with a given id is still found, decremented
exactly when the line addresses that id. -/
theorem find?_decrVariants (vs : List ProductVariant) (i : OrderItem)
    (vid : String) (w : ProductVariant)
    (hfind : vs.find? (fun x => x.id = vid) = some w) :
    (decrVariants vs i).find? (fun x => x.id = vid) =
      some (if i.variantId.getD "" = vid then
        { w with stock := w.stock - i.quantity } else w) := by
  induction vs with
  | nil => cases hfind
  | cons x t ih =>
    simp only [decrVariants, List.map_cons] at *
    by_cases hx : x.id = vid
    · rw [List.find?_cons_of_pos _ (by simpa using hx)] at hfind
      obtain rfl : x = w := by injection hfind
      by_cases hxi : x.id = i.variantId.getD ""
      · have hv2 : i.variantId.getD "" = vid := by rw [← hxi]; exact hx
        rw [if_pos hxi, List.find?_cons_of_pos _ (by simpa using hx),
          if_pos hv2]
      · have hv2 : ¬ i.variantId.getD "" = vid := by
          intro hcon
          exact hxi (by rw [hx, hcon])
        rw [if_neg hxi, List.find?_cons_of_pos _ (by simpa using hx),
          if_neg hv2]
    · rw [List.find?_cons_of_neg _ (by simpa using hx)] at hfind
      have hrec := ih hfind
      by_cases hxi : x.id = i.variantId.getD ""
      · rw [if_pos hxi, List.find?_cons_of_neg _ (by simpa using hx)]
        exact hrec
      · rw [if_neg hxi, List.find?_cons_of_neg _ (by simpa using hx)]
        exact hrec

/-- Folding the decrement loop over order lines leaves the addressed
variant at its stock minus the total demand of those lines on its id. -/
theorem find?_foldl_decrVariants (items : List OrderItem)
    (vs : List ProductVariant) (vid : String) (w : ProductVariant)
    (hfind : vs.find? (fun x => x.id = vid) = some w) :
    (items.foldl decrVariants vs).find? (fun x => x.id = vid) =
      some { w with stock := w.stock - itemsDemand items vid } := by
  induction items generalizing vs w with
  | nil =>
    simp only [List.foldl_nil]
    rw [hfind]
    have h0 : itemsDemand [] vid = 0 := rfl
    rw [h0]
    congr 1
    have h1 : w.stock - 0 = w.stock := by ring
    rw [h1]
  | cons i rest ih =>
    simp only [List.foldl_cons]
    have h1 := find?_decrVariants vs i vid w hfind
    by_cases hvi : i.variantId.getD "" = vid
    · rw [if_pos hvi] at h1
      have h2 := ih (decrVariants vs i)
        { w with stock := w.stock - i.quantity } h1
      rw [h2]
      have h3 : w.stock - i.quantity - itemsDemand rest vid =
          w.stock - itemsDemand (i :: rest) vid := by
        rw [itemsDemand_cons, if_pos hvi]; ring
      rw [← h3]
    · rw [if_neg hvi] at h1
      have h2 := ih (decrVariants vs i) w h1
      rw [h2]
      have h3 : w.stock - itemsDemand rest vid =
          w.stock - itemsDemand (i :: rest) vid := by
        rw [itemsDemand_cons, if_neg hvi]; ring
      rw [← h3]

/-- The decrement never changes variant ids, so id counts are stable. -/
theorem countP_decrVariants (vs : List ProductVariant) (i : OrderItem)
    (vid : String) :
    (decrVariants vs i).countP (fun w => w.id = vid) =
      vs.countP (fun w => w.id = vid) := by
  induction vs with
  | nil => rfl
  | cons x t ih =>
    simp only [decrVariants, List.map_cons] at *
    by_cases hxi : x.id = i.variantId.getD ""
    · rw [if_pos hxi, List.countP_cons, List.countP_cons, ih]
    · rw [if_neg hxi, List.countP_cons, List.countP_cons, ih]

/-- A line addressing an id that occurs nowhere decrements nothing. -/
theorem decrVariants_of_countP_zero (vs : List ProductVariant)
    (i : OrderItem)
    (h : vs.countP (fun w => w.id = i.variantId.getD "") = 0) :
    decrVariants vs i = vs := by
  induction vs with
  | nil => rfl
  | cons x t ih =>
    by_cases hx : x.id = i.variantId.getD ""
    · rw [List.countP_cons_of_pos _ _ (by simpa using hx)] at h
      exact absurd h (Nat.succ_ne_zero _)
    · rw [List.countP_cons_of_neg _ _ (by simpa using hx)] at h
      simp only [decrVariants, List.map_cons] at *
      rw [if_neg hx, ih h]

/-- When exactly one variant carries the addressed id, one decrement
lowers the variant-stock sum by exactly the line quantity. -/
theorem variantStockSum_decrVariants (vs : List ProductVariant)
    (i : OrderItem)
    (hcount : vs.countP (fun w => w.id = i.variantId.getD "") = 1) :
    variantStockSum (decrVariants vs i) = variantStockSum vs - i.quantity := by
  induction vs with
  | nil => simp [List.countP_nil] at hcount
  | cons x t ih =>
    by_cases hx : x.id = i.variantId.getD ""
    · have h0 : t.countP (fun w => w.id = i.variantId.getD "") = 0 := by
        rw [List.countP_cons_of_pos _ _ (by simpa using hx)] at hcount
        omega
      simp only [decrVariants, List.map_cons]
      rw [if_pos hx, variantStockSum_cons,
        show t.map (fun w => if w.id = i.variantId.getD "" then
          { w with stock := w.stock - i.quantity } else w) = decrVariants t i
          from rfl,
        decrVariants_of_countP_zero t i h0, variantStockSum_cons]
      show x.stock - i.quantity + variantStockSum t =
        x.stock + variantStockSum t - i.quantity
      ring
    · have h1 : t.countP (fun w => w.id = i.variantId.getD "") = 1 := by
        rw [List.countP_cons_of_neg _ _ (by simpa using hx)] at hcount
        omega
      simp only [decrVariants, List.map_cons]
      rw [if_neg hx, variantStockSum_cons,
        show t.map (fun w => if w.id = i.variantId.getD "" then
          { w with stock := w.stock - i.quantity } else w) = decrVariants t i
          from rfl,
        ih h1, variantStockSum_cons]
      ring

/-- The decrement fold keeps id counts stable. -/
theorem countP_foldl_decrVariants (items : List OrderItem)
    (vs : List ProductVariant) (vid : String) :
    (items.foldl decrVariants vs).countP (fun w => w.id = vid) =
      vs.countP (fun w => w.id = vid) := by
  induction items generalizing vs with
  | nil => rfl
  | cons i rest ih =>
    rw [List.foldl_cons, ih, countP_decrVariants]

/-- Folding the decrement loop lowers the variant-stock sum by exactly the
total quantity of the lines, when each line addresses an id occurring
exactly once. -/
theorem variantStockSum_foldl_decrVariants (items : List OrderItem)
    (vs : List ProductVariant)
    (hcount : ∀ i ∈ items,
      vs.countP (fun w => w.id = i.variantId.getD "") = 1) :
    variantStockSum (items.foldl decrVariants vs) =
      variantStockSum vs - totalQty items := by
  induction items generalizing vs with
  | nil =>
    simp [totalQty]
  | cons i rest ih =>
    rw [List.foldl_cons]
    have h1 := hcount i (by simp)
    have h2 : ∀ j ∈ rest,
        (decrVariants vs i).countP
          (fun w => w.id = j.variantId.getD "") = 1 := by
      intro j hj
      rw [countP_decrVariants]
      exact hcount j (by simp [hj])
    rw [ih (decrVariants vs i) h2, variantStockSum_decrVariants vs i h1,
      totalQty_cons]
    ring

/-- Under pairwise-distinct variant ids, a found id occurs exactly once. -/
theorem countP_eq_one_of_find? (vs : List ProductVariant) (vid : String)
    (w : ProductVariant)
    (hnd : vs.Pairwise (fun a b => a.id ≠ b.id))
    (hfind : vs.find? (fun x => x.id = vid) = some w) :
    vs.countP (fun x => x.id = vid) = 1 := by
  induction vs with
  | nil => cases hfind
  | cons x t ih =>
    rw [List.pairwise_cons] at hnd
    by_cases hx : x.id = vid
    · have h0 : t.countP (fun y => y.id = vid) = 0 := by
        rw [List.countP_eq_zero]
        intro y hy
        have hne := hnd.1 y hy
        simp only [decide_eq_true_eq]
        intro hyv
        exact hne (by rw [hx, hyv])
      rw [List.countP_cons, h0]
      simp [hx]
    · rw [List.find?_cons_of_neg _ (by simpa using hx)] at hfind
      have h1 := ih hnd.2 hfind
      rw [List.countP_cons, h1]
      simp [hx]

/-- Finding the updated row after productDb.update rewrites the matching
rows' variants and total_stock. -/
theorem find?_map_set_variants (l : List Product) (pid : String)
    (uv : List ProductVariant) (ts : Int) :
    (l.map (fun r => if r.id = pid then
        { r with variants := uv, total_stock := ts } else r)).find?
      (fun r => r.id = pid) =
      (l.find? (fun r => r.id = pid)).map (fun r =>
        { r with variants := uv, total_stock := ts }) := by
  induction l with
  | nil => rfl
  | cons r l ih =>
    by_cases hr : r.id = pid
    · rw [List.map_cons, if_pos hr,
        List.find?_cons_of_pos _ (by simpa using hr),
        List.find?_cons_of_pos _ (by simpa using hr)]
      rfl
    · rw [List.map_cons, if_neg hr,
        List.find?_cons_of_neg _ (by simpa using hr),
        List.find?_cons_of_neg _ (by simpa using hr)]
      exact ih

/-- Rows with a different id are not affected by that update. -/
theorem find?_map_set_variants_ne (l : List Product) (pid pid2 : String)
    (uv : List ProductVariant) (ts : Int) (hne : pid2 ≠ pid) :
    (l.map (fun r => if r.id = pid then
        { r with variants := uv, total_stock := ts } else r)).find?
      (fun r => r.id = pid2) =
      l.find? (fun r => r.id = pid2) := by
  induction l with
  | nil => rfl
  | cons r l ih =>
    by_cases hr : r.id = pid
    · have h2 : ¬ r.id = pid2 := by
        rw [hr]
        exact fun hcon => hne hcon.symm
      rw [List.map_cons, if_pos hr,
        List.find?_cons_of_neg _ (by simpa using h2),
        List.find?_cons_of_neg _ (by simpa using h2)]
      exact ih
    · by_cases h2 : r.id = pid2
      · rw [List.map_cons, if_neg hr,
          List.find?_cons_of_pos _ (by simpa using h2),
          List.find?_cons_of_pos _ (by simpa using h2)]
      · rw [List.map_cons, if_neg hr,
          List.find?_cons_of_neg _ (by simpa using h2),
          List.find?_cons_of_neg _ (by simpa using h2)]
        exact ih

/-- Finding the updated row after productDb.update rewrites the matching
rows' total_stock only (the variant-less path). -/
theorem find?_map_set_total (l : List Product) (pid : String) (ts : Int) :
    (l.map (fun r => if r.id = pid then
        { r with total_stock := ts } else r)).find?
      (fun r => r.id = pid) =
      (l.find? (fun r => r.id = pid)).map (fun r =>
        { r with total_stock := ts }) := by
  induction l with
  | nil => rfl
  | cons r l ih =>
    by_cases hr : r.id = pid
    · rw [List.map_cons, if_pos hr,
        List.find?_cons_of_pos _ (by simpa using hr),
        List.find?_cons_of_pos _ (by simpa using hr)]
      rfl
    · rw [List.map_cons, if_neg hr,
        List.find?_cons_of_neg _ (by simpa using hr),
        List.find?_cons_of_neg _ (by simpa using hr)]
      exact ih

/-- Rows with a different id are not affected by that update either. -/
theorem find?_map_set_total_ne (l : List Product) (pid pid2 : String)
    (ts : Int) (hne : pid2 ≠ pid) :
    (l.map (fun r => if r.id = pid then
        { r with total_stock := ts } else r)).find?
      (fun r => r.id = pid2) =
      l.find? (fun r => r.id = pid2) := by
  induction l with
  | nil => rfl
  | cons r l ih =>
    by_cases hr : r.id = pid
    · have h2 : ¬ r.id = pid2 := by
        rw [hr]
        exact fun hcon => hne hcon.symm
      rw [List.map_cons, if_pos hr,
        List.find?_cons_of_neg _ (by simpa using h2),
        List.find?_cons_of_neg _ (by simpa using h2)]
      exact ih
    · by_cases h2 : r.id = pid2
      · rw [List.map_cons, if_neg hr,
          List.find?_cons_of_pos _ (by simpa using h2),
          List.find?_cons_of_pos _ (by simpa using h2)]
      · rw [List.map_cons, if_neg hr,
          List.find?_cons_of_neg _ (by simpa using h2),
          List.find?_cons_of_neg _ (by simpa using h2)]
        exact ih

/-- Effect of one variant-path iteration of the stock loop on the store:
the addressed product row gets the decremented variants and the recomputed
sum; every other row is untouched. -/
theorem reduceStockForItem_variant (db : DB) (i : OrderItem) (pid : String)
    (p : Product) (hid : i.productId = pid)
    (hsel : hasVariantSelector i = true)
    (hp : productGetById db pid = some p) :
    productGetById (reduceStockForItem db i) pid =
      some { p with
          variants := decrVariants p.variants i,
          total_stock := variantStockSum (decrVariants p.variants i) } ∧
    ∀ pid2, pid2 ≠ pid →
      productGetById (reduceStockForItem db i) pid2 =
        productGetById db pid2 := by
  subst hid
  have hq2 : db.products.find? (fun r => r.id = i.productId) = some p := hp
  have hpid2 : p.id = i.productId := by simpa using List.find?_some hq2
  constructor
  · simp only [reduceStockForItem, productGetById, productUpdateRow, hq2,
      hsel, if_true]
    rw [hpid2, find?_map_set_variants, hq2]
    simp [hpid2, decrVariants]
  · intro pid2 hne
    simp only [reduceStockForItem, productGetById, productUpdateRow, hq2,
      hsel, if_true]
    rw [hpid2]
    exact find?_map_set_variants_ne db.products i.productId pid2 _ _ hne

/-- Effect of one variant-less iteration of the stock loop: the addressed
row's total_stock is decremented with the Math.max floor; every other row
is untouched; the variants are untouched. -/
theorem reduceStockForItem_plain (db : DB) (i : OrderItem) (pid : String)
    (p : Product) (hid : i.productId = pid)
    (hsel : hasVariantSelector i = false)
    (hp : productGetById db pid = some p) :
    productGetById (reduceStockForItem db i) pid =
      some { p with total_stock := max 0 (p.total_stock - i.quantity) } ∧
    ∀ pid2, pid2 ≠ pid →
      productGetById (reduceStockForItem db i) pid2 =
        productGetById db pid2 := by
  subst hid
  have hq2 : db.products.find? (fun r => r.id = i.productId) = some p := hp
  have hpid2 : p.id = i.productId := by simpa using List.find?_some hq2
  constructor
  · simp only [reduceStockForItem, productGetById, productUpdateRow, hq2,
      hsel, Bool.false_eq_true, if_false]
    rw [hpid2, find?_map_set_total, hq2]
    simp [hpid2]
  · intro pid2 hne
    simp only [reduceStockForItem, productGetById, productUpdateRow, hq2,
      hsel, Bool.false_eq_true, if_false]
    rw [hpid2]
    exact find?_map_set_total_ne db.products i.productId pid2 _ hne

/-- Lookups only read the products list. -/
theorem getById_congr (db1 db2 : DB) (pid : String)
    (h : db1.products = db2.products) :
    productGetById db1 pid = productGetById db2 pid := by
  simp [productGetById, h]

/-- The stock loop only reads and writes the products list. -/
theorem reduceStock_products_congr (db1 db2 : DB) (items : List OrderItem)
    (h : db1.products = db2.products) :
    (reduceStock db1 items).products = (reduceStock db2 items).products := by
  induction items generalizing db1 db2 with
  | nil => exact h
  | cons i rest ih =>
    rw [show reduceStock db1 (i :: rest) =
        reduceStock (reduceStockForItem db1 i) rest from rfl,
      show reduceStock db2 (i :: rest) =
        reduceStock (reduceStockForItem db2 i) rest from rfl]
    refine ih _ _ ?_
    simp only [reduceStockForItem, productGetById, h]
    cases hf : db2.products.find? (fun r => r.id = i.productId) with
    | none => exact h
    | some q =>
      cases hsel : hasVariantSelector i with
      | true => simp [hsel, productUpdateRow, h]
      | false => simp [hsel, productUpdateRow, h]

/-- Running the stock loop over variant-path lines that all address one
product: the row ends with the decremented variants and the recomputed
sum (the spec's own invariant `total_stock = Σ variant.stock` is assumed
to hold before); other rows are untouched. -/
theorem reduceStock_variant_lines (db : DB) (items : List OrderItem)
    (pid : String) (p : Product)
    (hall : ∀ i ∈ items, i.productId = pid ∧ hasVariantSelector i = true)
    (hp : productGetById db pid = some p)
    (hinv : p.total_stock = variantStockSum p.variants) :
    productGetById (reduceStock db items) pid =
      some { p with
          variants := items.foldl decrVariants p.variants,
          total_stock := variantStockSum (items.foldl decrVariants p.variants) } ∧
    ∀ pid2, pid2 ≠ pid →
      productGetById (reduceStock db items) pid2 = productGetById db pid2 := by
  induction items generalizing db p with
  | nil =>
    constructor
    · simp only [List.foldl_nil]
      rw [← hinv]
      exact hp
    · intro pid2 _
      rfl
  | cons i rest ih =>
    have hi := hall i (by simp)
    have hstep := reduceStockForItem_variant db i pid p hi.1 hi.2 hp
    have hrest : ∀ j ∈ rest, j.productId = pid ∧ hasVariantSelector j = true :=
      fun j hj => hall j (by simp [hj])
    have ihapp := ih (reduceStockForItem db i)
      { p with
        variants := decrVariants p.variants i,
        total_stock := variantStockSum (decrVariants p.variants i) }
      hrest hstep.1 rfl
    constructor
    · exact ihapp.1
    · intro pid2 hne
      rw [show reduceStock db (i :: rest) =
          reduceStock (reduceStockForItem db i) rest from rfl,
        ihapp.2 pid2 hne, hstep.2 pid2 hne]

/-- Running the stock loop over variant-less lines that all address one
product: total_stock drops by exactly the total quantity when that total
fits the available stock (the Math.max floor never bites); other rows and
the variants are untouched. -/
theorem reduceStock_plain_lines (db : DB) (items : List OrderItem)
    (pid : String) (p : Product)
    (hall : ∀ i ∈ items, i.productId = pid ∧ hasVariantSelector i = false ∧
      0 < i.quantity)
    (hp : productGetById db pid = some p)
    (hs : totalQty items ≤ p.total_stock) :
    productGetById (reduceStock db items) pid =
      some { p with total_stock := p.total_stock - totalQty items } ∧
    ∀ pid2, pid2 ≠ pid →
      productGetById (reduceStock db items) pid2 = productGetById db pid2 := by
  induction items generalizing db p with
  | nil =>
    constructor
    · have h0 : p.total_stock - totalQty [] = p.total_stock := by
        have : totalQty [] = 0 := rfl
        rw [this]; ring
      rw [h0]
      exact hp
    · intro pid2 _
      rfl
  | cons i rest ih =>
    have hi := hall i (by simp)
    have hrestpos : ∀ j ∈ rest, 0 < j.quantity :=
      fun j hj => (hall j (by simp [hj])).2.2
    have hrestq : 0 ≤ totalQty rest := totalQty_nonneg rest hrestpos
    have hcons : totalQty (i :: rest) = i.quantity + totalQty rest :=
      totalQty_cons i rest
    have hstep := reduceStockForItem_plain db i pid p hi.1 hi.2.1 hp
    have hmax : max 0 (p.total_stock - i.quantity) =
        p.total_stock - i.quantity := by omega
    rw [hmax] at hstep
    have hrest : ∀ j ∈ rest, j.productId = pid ∧
        hasVariantSelector j = false ∧ 0 < j.quantity :=
      fun j hj => hall j (by simp [hj])
    have ihapp := ih (reduceStockForItem db i)
      { p with total_stock := p.total_stock - i.quantity }
      hrest hstep.1 (by show totalQty rest ≤ p.total_stock - i.quantity; omega)
    constructor
    · have hsub : p.total_stock - i.quantity - totalQty rest =
          p.total_stock - totalQty (i :: rest) := by
        rw [hcons]; ring
      rw [← hsub]
      exact ihapp.1
    · intro pid2 hne
      rw [show reduceStock db (i :: rest) =
          reduceStock (reduceStockForItem db i) rest from rfl,
        ihapp.2 pid2 hne, hstep.2 pid2 hne]

/-- The validation loop accepts a cart when every line is well-formed,
resolves, and individually fits the stock it addresses. -/
theorem validateItems_pass (db : DB) (items : List OrderItem)
    (h : ∀ i ∈ items, i.productId ≠ "" ∧ 0 < i.quantity ∧ 0 < i.price ∧
      ∃ p, productGetById db i.productId = some p ∧
        ((∃ w, hasVariantSelector i = true ∧
           p.variants.find? (fun x => x.id = i.variantId.getD "") = some w ∧
           i.quantity ≤ w.stock) ∨
         (hasVariantSelector i = false ∧ i.quantity ≤ p.total_stock))) :
    validateItems db items = none := by
  induction items with
  | nil => rfl
  | cons i rest ih =>
    obtain ⟨hpid, hq, hpr, p, hp, hpath⟩ := h i (by simp)
    have hrest := fun j hj => h j (List.mem_cons_of_mem i hj)
    have hq0 : ¬ i.quantity = 0 := by omega
    have hqle : ¬ i.quantity ≤ 0 := by omega
    have hpr0 : ¬ i.price = 0 := by omega
    have hprlt : ¬ i.price < 0 := by omega
    rcases hpath with ⟨w, hsel, hfind, hws⟩ | ⟨hsel, hts⟩
    · have hnl : ¬ w.stock < i.quantity := by omega
      simp [validateItems, hpid, hq0, hpr0, hqle, hprlt, hp, hsel, hfind,
        hnl]
      exact ih hrest
    · have hnl : ¬ p.total_stock < i.quantity := by omega
      simp [validateItems, hpid, hq0, hpr0, hqle, hprlt, hp, hsel, hnl]
      exact ih hrest

/-- Successful order creation decomposed: the stored total is the server
recomputation, and the state change on products is exactly the stock loop. -/
theorem createOrder_ok_of_valid (db : DB) (req : CreateOrderReq)
    (hcid : req.customerId ≠ "") (hne : req.items ≠ [])
    (hval : validateItems db req.items = none) :
    (createOrder db req).1.map Order.total =
      .ok (itemsSubtotal req.items +
        (if req.deliveryType = "delivery" then 1500 else 0)) ∧
    (createOrder db req).2.products = (reduceStock db req.items).products := by
  have hemp : req.items.isEmpty = false := by
    cases h : req.items with
    | nil => exact absurd h hne
    | cons a l => rfl
  constructor
  · simp [createOrder, hcid, hemp, hval, Except.map]
  · simp [createOrder, hcid, hemp, hval]
    exact reduceStock_products_congr _ _ _ rfl

/-- Claim C6 (counterexample): two sequential valid orders with combined
quantity 5 against available stock 10 — the first variant-less, the second
on the variant.  Both succeed, but the variant-path decrement recomputes
total_stock from the variants alone (10 - 3 = 7), silently discarding the
earlier variant-less decrement, so the final total_stock is 7, not the
claimed 10 - (2 + 3) = 5. -/
theorem C6_counterexample :
    (createOrder db9 plainReq).1.isOk = true ∧
    (createOrder (createOrder db9 plainReq).2 variantReq).1.isOk = true ∧
    totalQty (plainReq.items ++ variantReq.items) = 5 ∧
    gadget.total_stock = 10 ∧
    (productGetById (createOrder (createOrder db9 plainReq).2 variantReq).2
      "p9").map Product.total_stock = some 7 ∧
    (7 : Int) ≠ 10 - 5 := by
  decide

/-- Claim C6 (amended): two sequential (non-concurrent) orders whose lines
address one product of an arbitrary store both succeed and leave that
product's total_stock at its initial value minus the sum of all ordered
quantities, provided all their lines draw on the same path: either every
line addresses an existing variant (with pairwise-distinct variant ids and
the spec invariant total_stock = Σ variant.stock holding beforehand, and
per-variant combined demand within that variant's stock), or every line is
variant-less (with combined quantity within total_stock).  Carts may hold
any number of lines, products any number of variants, and all other
product rows are untouched.  When the two orders mix the two paths on the
same product the variant-path decrement recomputes total_stock from the
variants alone and the equality can fail (see the counterexample). -/
theorem C6_two_sequential_orders :
    (∀ (db : DB) (pid : String) (p : Product) (req1 req2 : CreateOrderReq),
      productGetById db pid = some p → pid ≠ "" →
      p.variants.Pairwise (fun a b => a.id ≠ b.id) →
      p.total_stock = variantStockSum p.variants →
      req1.customerId ≠ "" → req2.customerId ≠ "" →
      req1.items ≠ [] → req2.items ≠ [] →
      (∀ i ∈ req1.items ++ req2.items, i.productId = pid ∧
        hasVariantSelector i = true ∧ 0 < i.quantity ∧ 0 < i.price ∧
        (p.variants.find? (fun x => x.id = i.variantId.getD "")).isSome =
          true) →
      (∀ w ∈ p.variants,
        itemsDemand (req1.items ++ req2.items) w.id ≤ w.stock) →
      (createOrder db req1).1.map Order.total =
        .ok (itemsSubtotal req1.items +
          (if req1.deliveryType = "delivery" then 1500 else 0)) ∧
      (createOrder (createOrder db req1).2 req2).1.map Order.total =
        .ok (itemsSubtotal req2.items +
          (if req2.deliveryType = "delivery" then 1500 else 0)) ∧
      productGetById (createOrder (createOrder db req1).2 req2).2 pid =
        some { p with
            variants :=
              (req1.items ++ req2.items).foldl decrVariants p.variants,
            total_stock :=
              p.total_stock - totalQty (req1.items ++ req2.items) } ∧
      (∀ pid2, pid2 ≠ pid →
        productGetById (createOrder (createOrder db req1).2 req2).2 pid2 =
          productGetById db pid2)) ∧
    (∀ (db : DB) (pid : String) (p : Product) (req1 req2 : CreateOrderReq),
      productGetById db pid = some p → pid ≠ "" →
      req1.customerId ≠ "" → req2.customerId ≠ "" →
      req1.items ≠ [] → req2.items ≠ [] →
      (∀ i ∈ req1.items ++ req2.items, i.productId = pid ∧
        hasVariantSelector i = false ∧ 0 < i.quantity ∧ 0 < i.price) →
      totalQty (req1.items ++ req2.items) ≤ p.total_stock →
      (createOrder db req1).1.map Order.total =
        .ok (itemsSubtotal req1.items +
          (if req1.deliveryType = "delivery" then 1500 else 0)) ∧
      (createOrder (createOrder db req1).2 req2).1.map Order.total =
        .ok (itemsSubtotal req2.items +
          (if req2.deliveryType = "delivery" then 1500 else 0)) ∧
      productGetById (createOrder (createOrder db req1).2 req2).2 pid =
        some { p with
            total_stock :=
              p.total_stock - totalQty (req1.items ++ req2.items) } ∧
      (∀ pid2, pid2 ≠ pid →
        productGetById (createOrder (createOrder db req1).2 req2).2 pid2 =
          productGetById db pid2)) := by
  constructor
  · intro db pid p req1 req2 hp hpid hnd hinv hcid1 hcid2 hne1 hne2 hall hdem
    have hallpos : ∀ i ∈ req1.items ++ req2.items, 0 < i.quantity :=
      fun i hi => (hall i hi).2.2.1
    have hval1 : validateItems db req1.items = none := by
      apply validateItems_pass
      intro i hi
      have hi2 : i ∈ req1.items ++ req2.items := List.mem_append_left _ hi
      obtain ⟨hipid, hisel, hiq, hipr, hiw⟩ := hall i hi2
      obtain ⟨w, hw⟩ := Option.isSome_iff_exists.mp hiw
      have hwid : w.id = i.variantId.getD "" := by
        simpa using List.find?_some hw
      have hwmem : w ∈ p.variants := List.mem_of_find?_eq_some hw
      refine ⟨by rw [hipid]; exact hpid, hiq, hipr, p,
        by rw [hipid]; exact hp, Or.inl ⟨w, hisel, hw, ?_⟩⟩
      have h1 : i.quantity ≤
          itemsDemand (req1.items ++ req2.items) (i.variantId.getD "") :=
        quantity_le_itemsDemand _ i hallpos hi2
      have h2 := hdem w hwmem
      rw [hwid] at h2
      omega
    have hco1 := createOrder_ok_of_valid db req1 hcid1 hne1 hval1
    have hall1 : ∀ i ∈ req1.items,
        i.productId = pid ∧ hasVariantSelector i = true := fun i hi =>
      ⟨(hall i (List.mem_append_left _ hi)).1,
       (hall i (List.mem_append_left _ hi)).2.1⟩
    have hred1 := reduceStock_variant_lines db req1.items pid p hall1 hp hinv
    have hgety : productGetById (createOrder db req1).2 pid =
        some { p with
            variants := req1.items.foldl decrVariants p.variants,
            total_stock :=
              variantStockSum (req1.items.foldl decrVariants p.variants) } := by
      rw [getById_congr _ _ _ hco1.2]
      exact hred1.1
    have hframe1 : ∀ pid2, pid2 ≠ pid →
        productGetById (createOrder db req1).2 pid2 =
          productGetById db pid2 := by
      intro pid2 hne
      rw [getById_congr _ _ _ hco1.2]
      exact hred1.2 pid2 hne
    have hval2 : validateItems (createOrder db req1).2 req2.items = none := by
      apply validateItems_pass
      intro j hj
      have hj2 : j ∈ req1.items ++ req2.items := List.mem_append_right _ hj
      obtain ⟨hjpid, hjsel, hjq, hjpr, hjw⟩ := hall j hj2
      obtain ⟨w, hw⟩ := Option.isSome_iff_exists.mp hjw
      have hwid : w.id = j.variantId.getD "" := by
        simpa using List.find?_some hw
      have hwmem : w ∈ p.variants := List.mem_of_find?_eq_some hw
      refine ⟨by rw [hjpid]; exact hpid, hjq, hjpr,
        { p with
            variants := req1.items.foldl decrVariants p.variants,
            total_stock :=
              variantStockSum (req1.items.foldl decrVariants p.variants) },
        by rw [hjpid]; exact hgety,
        Or.inl ⟨{ w with
            stock := w.stock - itemsDemand req1.items (j.variantId.getD "") },
          hjsel,
          find?_foldl_decrVariants req1.items p.variants
            (j.variantId.getD "") w hw, ?_⟩⟩
      have h1 : j.quantity ≤ itemsDemand req2.items (j.variantId.getD "") :=
        quantity_le_itemsDemand _ j
          (fun k hk => hallpos k (List.mem_append_right _ hk)) hj
      have h2 := hdem w hwmem
      rw [hwid] at h2
      have h3 := itemsDemand_append req1.items req2.items (j.variantId.getD "")
      show j.quantity ≤ w.stock - itemsDemand req1.items (j.variantId.getD "")
      omega
    have hco2 := createOrder_ok_of_valid (createOrder db req1).2 req2 hcid2
      hne2 hval2
    have hall2 : ∀ j ∈ req2.items,
        j.productId = pid ∧ hasVariantSelector j = true := fun j hj =>
      ⟨(hall j (List.mem_append_right _ hj)).1,
       (hall j (List.mem_append_right _ hj)).2.1⟩
    have hred2 := reduceStock_variant_lines (createOrder db req1).2 req2.items
      pid
      { p with
          variants := req1.items.foldl decrVariants p.variants,
          total_stock :=
            variantStockSum (req1.items.foldl decrVariants p.variants) }
      hall2 hgety rfl
    have hfin : productGetById (createOrder (createOrder db req1).2 req2).2
        pid =
        some { p with
            variants := req2.items.foldl decrVariants
              (req1.items.foldl decrVariants p.variants),
            total_stock := variantStockSum (req2.items.foldl decrVariants
              (req1.items.foldl decrVariants p.variants)) } := by
      rw [getById_congr _ _ _ hco2.2]
      exact hred2.1
    have hcount : ∀ i ∈ req1.items ++ req2.items,
        p.variants.countP (fun w => w.id = i.variantId.getD "") = 1 := by
      intro i hi
      obtain ⟨-, -, -, -, hiw⟩ := hall i hi
      obtain ⟨w, hw⟩ := Option.isSome_iff_exists.mp hiw
      exact countP_eq_one_of_find? p.variants _ w hnd hw
    have hsum : variantStockSum
        ((req1.items ++ req2.items).foldl decrVariants p.variants) =
        p.total_stock - totalQty (req1.items ++ req2.items) := by
      rw [variantStockSum_foldl_decrVariants _ _ hcount, hinv]
    refine ⟨hco1.1, hco2.1, ?_, ?_⟩
    · rw [← hsum, List.foldl_append]
      exact hfin
    · intro pid2 hne
      rw [getById_congr _ _ _ hco2.2, hred2.2 pid2 hne, hframe1 pid2 hne]
  · intro db pid p req1 req2 hp hpid hcid1 hcid2 hne1 hne2 hall hs
    have hallpos : ∀ i ∈ req1.items ++ req2.items, 0 < i.quantity :=
      fun i hi => (hall i hi).2.2.1
    have htq := totalQty_append req1.items req2.items
    have htq1 : 0 ≤ totalQty req1.items := totalQty_nonneg _
      (fun i hi => hallpos i (List.mem_append_left _ hi))
    have htq2 : 0 ≤ totalQty req2.items := totalQty_nonneg _
      (fun i hi => hallpos i (List.mem_append_right _ hi))
    have hval1 : validateItems db req1.items = none := by
      apply validateItems_pass
      intro i hi
      obtain ⟨hipid, hisel, hiq, hipr⟩ := hall i (List.mem_append_left _ hi)
      refine ⟨by rw [hipid]; exact hpid, hiq, hipr, p,
        by rw [hipid]; exact hp, Or.inr ⟨hisel, ?_⟩⟩
      have h1 : i.quantity ≤ totalQty req1.items :=
        quantity_le_totalQty _ i
          (fun j hj => hallpos j (List.mem_append_left _ hj)) hi
      omega
    have hco1 := createOrder_ok_of_valid db req1 hcid1 hne1 hval1
    have hall1 : ∀ i ∈ req1.items, i.productId = pid ∧
        hasVariantSelector i = false ∧ 0 < i.quantity := by
      intro i hi
      have h := hall i (List.mem_append_left _ hi)
      exact ⟨h.1, h.2.1, h.2.2.1⟩
    have hred1 := reduceStock_plain_lines db req1.items pid p hall1 hp
      (by omega)
    have hgety : productGetById (createOrder db req1).2 pid =
        some { p with total_stock := p.total_stock - totalQty req1.items } := by
      rw [getById_congr _ _ _ hco1.2]
      exact hred1.1
    have hframe1 : ∀ pid2, pid2 ≠ pid →
        productGetById (createOrder db req1).2 pid2 =
          productGetById db pid2 := by
      intro pid2 hne
      rw [getById_congr _ _ _ hco1.2]
      exact hred1.2 pid2 hne
    have hval2 : validateItems (createOrder db req1).2 req2.items = none := by
      apply validateItems_pass
      intro j hj
      obtain ⟨hjpid, hjsel, hjq, hjpr⟩ := hall j (List.mem_append_right _ hj)
      refine ⟨by rw [hjpid]; exact hpid, hjq, hjpr,
        { p with total_stock := p.total_stock - totalQty req1.items },
        by rw [hjpid]; exact hgety, Or.inr ⟨hjsel, ?_⟩⟩
      have h1 : j.quantity ≤ totalQty req2.items :=
        quantity_le_totalQty _ j
          (fun k hk => hallpos k (List.mem_append_right _ hk)) hj
      show j.quantity ≤ p.total_stock - totalQty req1.items
      omega
    have hco2 := createOrder_ok_of_valid (createOrder db req1).2 req2 hcid2
      hne2 hval2
    have hall2 : ∀ j ∈ req2.items, j.productId = pid ∧
        hasVariantSelector j = false ∧ 0 < j.quantity := by
      intro j hj
      have h := hall j (List.mem_append_right _ hj)
      exact ⟨h.1, h.2.1, h.2.2.1⟩
    have hred2 := reduceStock_plain_lines (createOrder db req1).2 req2.items
      pid { p with total_stock := p.total_stock - totalQty req1.items }
      hall2 hgety
      (by show totalQty req2.items ≤ p.total_stock - totalQty req1.items
          omega)
    refine ⟨hco1.1, hco2.1, ?_, ?_⟩
    · rw [getById_congr _ _ _ hco2.2]
      have hsub : p.total_stock - totalQty req1.items - totalQty req2.items =
          p.total_stock - totalQty (req1.items ++ req2.items) := by
        rw [htq]; ring
      rw [← hsub]
      exact hred2.1
    · intro pid2 hne
      rw [getById_congr _ _ _ hco2.2, hred2.2 pid2 hne, hframe1 pid2 hne]

theorem C6_witness :
    (createOrder db0 pickupReq3).1.map Order.total = .ok 30000 ∧
    (createOrder (createOrder db0 pickupReq3).2 pickupReq2).1.map Order.total =
      .ok 20000 ∧
    productGetById (createOrder (createOrder db0 pickupReq3).2 pickupReq2).2
      "p1" =
      some { widget with
          variants := [ { redVariant with stock := 0 } ],
          total_stock := 0 } ∧
    (productGetById (createOrder db0 pickupReq3).2 "p1").map
      Product.total_stock = some 2 ∧
    (productGetById (createOrder db0 pickupReq3).2 "p1").map
      (fun p => p.variants.map ProductVariant.stock) = some [2] :=
  ⟨(C6_two_sequential_orders.1 db0 "p1" widget pickupReq3 pickupReq2
      (by decide) (by decide) (by simp [widget, redVariant]) (by decide)
      (by decide) (by decide) (by decide) (by decide) (by decide)
      (by decide)).1,
   (C6_two_sequential_orders.1 db0 "p1" widget pickupReq3 pickupReq2
      (by decide) (by decide) (by simp [widget, redVariant]) (by decide)
      (by decide) (by decide) (by decide) (by decide) (by decide)
      (by decide)).2.1,
   (C6_two_sequential_orders.1 db0 "p1" widget pickupReq3 pickupReq2
      (by decide) (by decide) (by simp [widget, redVariant]) (by decide)
      (by decide) (by decide) (by decide) (by decide) (by decide)
      (by decide)).2.2.1,
   by decide, by decide⟩

end Dash2
